import Mathlib

set_option maxHeartbeats 1000000

/- Shallow embedding of `src/main.rs` of wav-files-denoise-api (local-subprocess
variant). Paths are modelled as component lists, the ambient filesystem and
process effects as oracles, and the driver as a fold over the walk listing that
records an ordered trace of the observable events (stdout, stderr, directory
creation, process spawns). -/

/-- A filesystem path, modelled as its list of components. The Rust code only
joins paths, strips prefixes and takes parents of `PathBuf`s, all of which act
componentwise on normalized paths. -/
abbrev FsPath := List String

/-- Rendering of a path for diagnostics, mirroring `FsPath::display`. -/
def pathDisplay (p : FsPath) : String :=
  String.intercalate ("/") p

/-- The `sample_format` field of a `hound::WavSpec`. -/
inductive SampleFormat where
  | int
  | float
deriving DecidableEq

/-- The fields of `hound::WavSpec`, the parsed WAV format descriptor. -/
structure WavSpec where
  channels : Nat
  sample_rate : Nat
  bits_per_sample : Nat
  sample_format : SampleFormat
deriving DecidableEq

/-- The ambient effects the program performs, supplied as oracles: opening and
parsing a WAV header (`hound::WavReader::open` followed by `.spec()`), spawning
the denoiser process and waiting for its exit code (`Command::status`, the code
as an integer, spawn failure as an error), and `std::fs::create_dir_all`. -/
structure SysEnv where
  openWav : FsPath → Except String WavSpec
  spawnStatus : FsPath → List String → Except String Int
  createDirAll : FsPath → Except String Unit

/-- `validate_wav` from `src/main.rs`: open the WAV file (attaching the
"Failed to open" context on error, as `with_context` does) and compare the
descriptor against mono, 16000 Hz, 16-bit. -/
def validate_wav (openWav : FsPath → Except String WavSpec) (path : FsPath) :
    Except String Bool :=
  match openWav path with
  | Except.error _ =>
      Except.error ("Failed to open WAV file: " ++ pathDisplay path)
  | Except.ok spec =>
      Except.ok (spec.channels == 1 && spec.sample_rate == 16000 &&
        spec.bits_per_sample == 16)

/-- The parsed CLI arguments (struct `Args` in `src/main.rs`). -/
structure Args where
  input_dir : FsPath
  output_dir : FsPath
  nnnoiseless_path : Option FsPath
  model_path : Option FsPath
deriving DecidableEq

/-- The file type of a directory entry as reported by `walkdir`. -/
inductive FileType where
  | file
  | dir
  | symlink
deriving DecidableEq

/-- One item yielded by the `WalkDir` iterator: either a directory entry with
its path and file type, or a traversal error (`walkdir` yields a single error
entry for an unreadable or nonexistent root, and error entries for unreadable
subtrees). -/
inductive WalkEntry where
  | ok (path : FsPath) (ftype : FileType)
  | err (message : String)
deriving DecidableEq

/-- The characters after the final '.' of a character list, if the list has
one: the scan for the extension separator inside `FsPath::extension`. -/
def extCore : List Char → Option (List Char)
  | [] => none
  | c :: rest =>
      match extCore rest with
      | some e => some e
      | none => if c = '.' then some rest else none

/-- `FsPath::extension` applied to a file name: `none` when the name is empty or
has no dot, or when its only dot is the leading character (hidden files such as
".wav" have no extension in Rust); otherwise the portion after the final dot. -/
def fileExtension (name : String) : Option String :=
  match String.toList name with
  | [] => none
  | _ :: rest => Option.map (fun cs => String.mk cs) (extCore rest)

/-- `entry.path().extension()`: the extension of the path's final component.
The code further applies `.to_str()`; components are modelled as `String`,
always valid UTF-8, so that conversion never fails here. -/
def pathExtension (p : FsPath) : Option String :=
  Option.bind (List.getLast? p) fileExtension

/-- `filter_map(|e| e.ok())` over the walk listing: keep directory entries,
silently drop traversal errors. -/
def walkOkEntries (entries : List WalkEntry) : List (FsPath × FileType) :=
  List.filterMap
    (fun e =>
      match e with
      | WalkEntry.ok p t => some (p, t)
      | WalkEntry.err _ => none)
    entries

/-- The paths that survive the walk's filter chain in `main`:
drop errors, keep regular files, keep extension exactly "wav". -/
def filteredPaths (entries : List WalkEntry) : List FsPath :=
  List.map Prod.fst
    (List.filter (fun pt => decide (pathExtension pt.1 = some ("wav")))
      (List.filter (fun pt => decide (pt.2 = FileType.file))
        (walkOkEntries entries)))

/-- `input_path.strip_prefix(&args.input_dir)` on component lists: drop the
root when it is a prefix, otherwise fail. -/
def stripRoot (root p : FsPath) : Option FsPath :=
  if List.isPrefixOf root p then some (List.drop root.length p) else none

/-- `FsPath::parent`: `none` for the empty path, else drop the final component. -/
def parentDir (p : FsPath) : Option FsPath :=
  if p.isEmpty then none else some p.dropLast

/-- An observable event of a run, in program order: a line on stdout, a line on
stderr, a `create_dir_all` call, or a process spawn with its argument list. -/
inductive Event where
  | out (line : String)
  | errOut (line : String)
  | fsCreateDirAll (p : FsPath)
  | procSpawn (exe : FsPath) (argv : List String)
deriving DecidableEq

/-- Whether an event is a stdout line. -/
def Event.isOut : Event → Bool
  | Event.out _ => true
  | _ => false

/-- How one iteration of the loop in `main` ends when it is not fatal. -/
inductive ItemOutcome where
  | processedItem
  | skippedInvalid
  | skippedFailed (code : Int)
deriving DecidableEq

/-- The `Display` rendering of a `std::process::ExitStatus` that exited with
the given code. -/
def statusDisplay (code : Int) : String :=
  "exit status: " ++ toString code

/-- The final summary line printed by `main`. -/
def summaryLine (processed skipped : Nat) : String :=
  "Denoising complete: " ++ toString processed ++ " files processed, " ++
    toString skipped ++ " skipped."

/-- The argument list built for the `nnnoiseless` command: the optional
`--model=<path>` flag, then the input path, then the output path. -/
def cmdArgs (args : Args) (input_path output_path : FsPath) : List String :=
  (match args.model_path with
   | some model => ["--model=" ++ pathDisplay model]
   | none => []) ++ [pathDisplay input_path, pathDisplay output_path]

/-- The spawn-and-wait step of one loop iteration (`cmd.status()` and the exit
check): spawn failure is fatal; exit code zero counts the item as processed;
a non-zero exit prints a diagnostic and counts the item as skipped. -/
def dispatchStep (env : SysEnv) (args : Args) (cmd : FsPath)
    (input_path output_path : FsPath) : List Event × Except String ItemOutcome :=
  match env.spawnStatus cmd (cmdArgs args input_path output_path) with
  | Except.error _ =>
      ([Event.procSpawn cmd (cmdArgs args input_path output_path)],
       Except.error ("Failed to execute nnnoiseless for: " ++
         pathDisplay input_path))
  | Except.ok code =>
      if code = 0 then
        ([Event.procSpawn cmd (cmdArgs args input_path output_path)],
         Except.ok ItemOutcome.processedItem)
      else
        ([Event.procSpawn cmd (cmdArgs args input_path output_path),
          Event.errOut ("Denoising failed for " ++ pathDisplay input_path ++
            ": exit code " ++ statusDisplay code)],
         Except.ok (ItemOutcome.skippedFailed code))

/-- The body of the loop in `main` for one filtered path: validate, strip the
input root, join onto the output root, create the output parent directory, and
dispatch. Returns the events of the iteration and either a fatal error (the
`?` operator) or the iteration's outcome. -/
def processEntry (env : SysEnv) (args : Args) (cmd : FsPath) (input_path : FsPath) :
    List Event × Except String ItemOutcome :=
  match validate_wav env.openWav input_path with
  | Except.error e => ([], Except.error e)
  | Except.ok false =>
      ([Event.errOut ("Skipping invalid WAV file: " ++ pathDisplay input_path)],
       Except.ok ItemOutcome.skippedInvalid)
  | Except.ok true =>
      match stripRoot args.input_dir input_path with
      | none =>
          ([], Except.error ("Failed to compute relative path for: " ++
            pathDisplay input_path))
      | some relative =>
          match parentDir (args.output_dir ++ relative) with
          | none => dispatchStep env args cmd input_path (args.output_dir ++ relative)
          | some parent =>
              match env.createDirAll parent with
              | Except.error _ =>
                  ([Event.fsCreateDirAll parent],
                   Except.error ("Failed to create output directory for: " ++
                     pathDisplay (args.output_dir ++ relative)))
              | Except.ok _ =>
                  (Event.fsCreateDirAll parent ::
                     (dispatchStep env args cmd input_path
                       (args.output_dir ++ relative)).1,
                   (dispatchStep env args cmd input_path
                     (args.output_dir ++ relative)).2)

/-- The observable result of a whole run: the event trace, the value returned
by `main` (`Ok(())` means process exit 0), and the final counters. -/
structure RunResult where
  events : List Event
  exit : Except String Unit
  processed : Nat
  skipped : Nat

/-- The driver loop of `main` over the filtered paths, carrying the counters
and the trace accumulated so far; ends with the summary line on stdout. -/
def runLoop (env : SysEnv) (args : Args) (cmd : FsPath) :
    List FsPath → Nat → Nat → List Event → RunResult
  | [], processed, skipped, evs =>
      { events := evs ++ [Event.out (summaryLine processed skipped)],
        exit := Except.ok (), processed := processed, skipped := skipped }
  | input_path :: rest, processed, skipped, evs =>
      match (processEntry env args cmd input_path).2 with
      | Except.error e =>
          { events := evs ++ (processEntry env args cmd input_path).1,
            exit := Except.error e, processed := processed, skipped := skipped }
      | Except.ok ItemOutcome.processedItem =>
          runLoop env args cmd rest (processed + 1) skipped
            (evs ++ (processEntry env args cmd input_path).1)
      | Except.ok ItemOutcome.skippedInvalid =>
          runLoop env args cmd rest processed (skipped + 1)
            (evs ++ (processEntry env args cmd input_path).1)
      | Except.ok (ItemOutcome.skippedFailed _) =>
          runLoop env args cmd rest processed (skipped + 1)
            (evs ++ (processEntry env args cmd input_path).1)

/-- `args.nnnoiseless_path.clone().unwrap_or_else(|| PathBuf::from("nnnoiseless"))`. -/
def nnnoiselessCmd (args : Args) : FsPath :=
  match args.nnnoiseless_path with
  | some p => p
  | none => ["nnnoiseless"]

/-- `main` from `src/main.rs`: create the output root, resolve the denoiser
command, then run the loop over the filtered walk listing. -/
def mainRun (env : SysEnv) (args : Args) (entries : List WalkEntry) : RunResult :=
  match env.createDirAll args.output_dir with
  | Except.error _ =>
      { events := [Event.fsCreateDirAll args.output_dir],
        exit := Except.error ("Failed to create output directory: " ++
          pathDisplay args.output_dir),
        processed := 0, skipped := 0 }
  | Except.ok _ =>
      runLoop env args (nnnoiselessCmd args) (filteredPaths entries) 0 0
        [Event.fsCreateDirAll args.output_dir]

/-- A format descriptor matching the acceptance triple. -/
def specGood : WavSpec :=
  { channels := 1, sample_rate := 16000, bits_per_sample := 16,
    sample_format := SampleFormat.int }

/-- A stereo format descriptor, rejected by the gate. -/
def specStereo : WavSpec :=
  { channels := 2, sample_rate := 16000, bits_per_sample := 16,
    sample_format := SampleFormat.int }

/-- An environment in which every effect succeeds: every WAV parses to the
accepted descriptor, every spawn exits 0, every directory creation succeeds. -/
def envAllOk : SysEnv :=
  { openWav := fun _ => Except.ok specGood,
    spawnStatus := fun _ _ => Except.ok 0,
    createDirAll := fun _ => Except.ok () }

/-- Like `envAllOk` but the spawned process exits with code 1. -/
def envExitOne : SysEnv :=
  { envAllOk with spawnStatus := fun _ _ => Except.ok 1 }

/-- Like `envAllOk` but opening any WAV file fails. -/
def envOpenFail : SysEnv :=
  { envAllOk with openWav := fun _ => Except.error ("io error") }

/-- Like `envAllOk` but every WAV parses to a stereo descriptor. -/
def envStereo : SysEnv :=
  { envAllOk with openWav := fun _ => Except.ok specStereo }

/-- A basic argument set: input root `in`, output root `out`, no flags. -/
def argsBasic : Args :=
  { input_dir := ["in"], output_dir := ["out"],
    nnnoiseless_path := none, model_path := none }

/-- `extCore` finds nothing exactly when the list contains no dot. -/
theorem extCore_eq_none (l : List Char) : extCore l = none ↔ ('.') ∉ l := by
  induction l with
  | nil => simp [extCore]
  | cons c rest ih =>
      cases h : extCore rest with
      | none =>
          by_cases hc : c = '.'
          · subst hc
            simp [extCore, h]
          · simp [extCore, h, hc, ih.mp h, Ne.symm hc]
      | some e =>
          have hmem : ('.') ∈ rest := by
            by_contra hmem
            rw [← ih] at hmem
            rw [h] at hmem
            exact Option.some_ne_none e hmem
          simp [extCore, h, hmem]


/-- `extCore` returns exactly the dot-free tail after the final dot. -/
theorem extCore_eq_some (l e : List Char) :
    extCore l = some e ↔ ∃ pre, l = pre ++ ('.') :: e ∧ ('.') ∉ e := by
  induction l generalizing e with
  | nil =>
      constructor
      · intro h; simp [extCore] at h
      · rintro ⟨pre, hpre, -⟩
        exact absurd hpre (by simp)
  | cons c rest ih =>
      constructor
      · intro h
        cases hr : extCore rest with
        | some e0 =>
            have h' : e0 = e := by
              rw [show extCore (c :: rest) = some e0 by simp [extCore, hr]] at h
              exact Option.some.inj h
            rw [← h']
            obtain ⟨pre0, hsplit, hnd⟩ := (ih e0).mp hr
            exact ⟨c :: pre0, by simp [hsplit], hnd⟩
        | none =>
            by_cases hc : c = '.'
            · subst hc
              rw [show extCore ('.' :: rest) = some rest by simp [extCore, hr]] at h
              have h' : rest = e := Option.some.inj h
              rw [← h']
              exact ⟨[], rfl, (extCore_eq_none rest).mp hr⟩
            · rw [show extCore (c :: rest) = none by simp [extCore, hr, hc]] at h
              exact absurd h (by simp)
      · rintro ⟨pre, hsplit, hnd⟩
        cases pre with
        | nil =>
            have h1 : c = '.' := (List.cons.injEq _ _ _ _ ▸ hsplit).1
            have h2 : rest = e := (List.cons.injEq _ _ _ _ ▸ hsplit).2
            have hr : extCore e = none := (extCore_eq_none e).mpr hnd
            rw [h1, h2]
            simp [extCore, hr]
        | cons c' pre' =>
            have h1 : c = c' := (List.cons.injEq _ _ _ _ ▸ hsplit).1
            have h2 : rest = pre' ++ ('.') :: e := (List.cons.injEq _ _ _ _ ▸ hsplit).2
            have hr : extCore rest = some e := (ih e).mpr ⟨pre', h2, hnd⟩
            simp [extCore, hr]

/-- The Rust extension of a name is `"wav"` exactly when the name ends in the
four characters `.wav` and at least one character precedes that suffix. -/
theorem fileExtension_wav_iff (name : String) :
    fileExtension name = some ("wav") ↔
      ∃ pre, String.toList name = pre ++ [ '.', 'w', 'a', 'v' ] ∧ pre ≠ [] := by
  cases h : String.toList name with
  | nil =>
      have hz : fileExtension name = none := by
        unfold fileExtension
        rw [h]
      rw [hz]
      constructor
      · intro hx; exact absurd hx (by simp)
      · rintro ⟨pre, hpre, -⟩
        exact absurd hpre.symm (by simp)
  | cons c rest =>
      have hunfold : fileExtension name =
          Option.map (fun cs => String.mk cs) (extCore rest) := by
        unfold fileExtension
        rw [h]
      rw [hunfold]
      constructor
      · intro hx
        obtain ⟨cs, hcs, hmk⟩ := Option.map_eq_some'.mp hx
        have hcs' : cs = [ 'w', 'a', 'v' ] := by
          have hdata := congrArg String.toList hmk
          simpa using hdata
        rw [hcs'] at hcs
        obtain ⟨pre0, hsplit, -⟩ := (extCore_eq_some rest _).mp hcs
        refine ⟨c :: pre0, by simp [hsplit], by simp⟩
      · rintro ⟨pre, hpre, hne⟩
        cases pre with
        | nil => exact absurd rfl hne
        | cons c' pre' =>
            have h2 : rest = pre' ++ [ '.', 'w', 'a', 'v' ] :=
              (List.cons.injEq _ _ _ _ ▸ hpre).2
            have hr : extCore rest = some ([ 'w', 'a', 'v' ]) :=
              (extCore_eq_some rest _).mpr ⟨pre', h2, by decide⟩
            rw [hr]
            rfl

/-- Membership in the error-dropping stage of the filter chain. -/
theorem walkOkEntries_mem (entries : List WalkEntry) (p : FsPath) (t : FileType) :
    (p, t) ∈ walkOkEntries entries ↔ WalkEntry.ok p t ∈ entries := by
  unfold walkOkEntries
  rw [List.mem_filterMap]
  constructor
  · rintro ⟨e, he, hm⟩
    cases e with
    | ok q s =>
        simp only [Option.some.injEq, Prod.mk.injEq] at hm
        rw [← hm.1, ← hm.2]
        exact he
    | err m => simp at hm
  · intro h
    exact ⟨WalkEntry.ok p t, h, rfl⟩

/-- A path reaches the validator exactly when its entry is a regular file with
Rust extension `"wav"`. -/
theorem filteredPaths_mem (entries : List WalkEntry) (p : FsPath) :
    p ∈ filteredPaths entries ↔
      WalkEntry.ok p FileType.file ∈ entries ∧ pathExtension p = some ("wav") := by
  unfold filteredPaths
  constructor
  · intro h
    obtain ⟨⟨q, t⟩, hmem, hq⟩ := List.mem_map.mp h
    obtain ⟨hmem2, hext⟩ := List.mem_filter.mp hmem
    obtain ⟨hmem3, hfile⟩ := List.mem_filter.mp hmem2
    have ht : t = FileType.file := of_decide_eq_true hfile
    have hq' : q = p := hq
    rw [ht, hq'] at hmem3
    rw [hq'] at hext
    exact ⟨(walkOkEntries_mem entries p FileType.file).mp hmem3,
      of_decide_eq_true hext⟩
  · rintro ⟨hin, hext⟩
    refine List.mem_map.mpr ⟨(p, FileType.file), ?_, rfl⟩
    refine List.mem_filter.mpr ⟨List.mem_filter.mpr ⟨?_, by simp⟩, by simp [hext]⟩
    exact (walkOkEntries_mem entries p FileType.file).mpr hin

/-- The filter chain distributes over appending walk listings. -/
theorem filteredPaths_append (xs ys : List WalkEntry) :
    filteredPaths (xs ++ ys) = filteredPaths xs ++ filteredPaths ys := by
  simp [filteredPaths, walkOkEntries, List.filterMap_append, List.filter_append]

/-- A leading traversal error contributes nothing to the filter chain. -/
theorem filteredPaths_err_cons (m : String) (ys : List WalkEntry) :
    filteredPaths (WalkEntry.err m :: ys) = filteredPaths ys := by
  simp [filteredPaths, walkOkEntries, List.filterMap_cons]

/-- A walk that yields only traversal errors filters to no paths at all. -/
theorem filteredPaths_all_err (errs : List String) :
    filteredPaths (List.map WalkEntry.err errs) = [] := by
  induction errs with
  | nil => rfl
  | cons m rest ih => simpa [filteredPaths_err_cons] using ih

/-- The dispatch step never writes to stdout. -/
theorem dispatchStep_no_out (env : SysEnv) (args : Args) (cmd input_path output_path : FsPath) :
    List.filter Event.isOut (dispatchStep env args cmd input_path output_path).1 = [] := by
  cases hs : env.spawnStatus cmd (cmdArgs args input_path output_path) with
  | error e => simp [dispatchStep, hs, Event.isOut]
  | ok code =>
      by_cases hc : code = 0
      · simp [dispatchStep, hs, hc, Event.isOut]
      · simp [dispatchStep, hs, hc, Event.isOut]

/-- One loop iteration never writes to stdout. -/
theorem processEntry_no_out (env : SysEnv) (args : Args) (cmd input_path : FsPath) :
    List.filter Event.isOut (processEntry env args cmd input_path).1 = [] := by
  cases hv : validate_wav env.openWav input_path with
  | error e => simp [processEntry, hv]
  | ok b =>
      cases b with
      | false => simp [processEntry, hv, Event.isOut]
      | true =>
          cases hs : stripRoot args.input_dir input_path with
          | none => simp [processEntry, hv, hs]
          | some relative =>
              cases hp : parentDir (args.output_dir ++ relative) with
              | none => simp [processEntry, hv, hs, hp, dispatchStep_no_out]
              | some parent =>
                  cases hc : env.createDirAll parent with
                  | error e => simp [processEntry, hv, hs, hp, hc, Event.isOut]
                  | ok u =>
                      simp [processEntry, hv, hs, hp, hc, Event.isOut,
                        List.filter_cons, dispatchStep_no_out]

/-- Any spawn event of the dispatch step uses the given command and the
computed argument list. -/
theorem dispatchStep_spawn_mem (env : SysEnv) (args : Args)
    (cmd input_path output_path exe : FsPath) (argv : List String)
    (h : Event.procSpawn exe argv ∈ (dispatchStep env args cmd input_path output_path).1) :
    exe = cmd ∧ argv = cmdArgs args input_path output_path := by
  cases hs : env.spawnStatus cmd (cmdArgs args input_path output_path) with
  | error e =>
      simp [dispatchStep, hs] at h
      exact ⟨h.1, h.2⟩
  | ok code =>
      by_cases hc : code = 0
      · simp [dispatchStep, hs, hc] at h
        exact ⟨h.1, h.2⟩
      · simp [dispatchStep, hs, hc] at h
        exact ⟨h.1, h.2⟩

/-- Any spawn event of one loop iteration uses the given command, and its
argument list is the one computed from the stripped suffix joined onto the
output root. -/
theorem processEntry_spawn_mem (env : SysEnv) (args : Args) (cmd input_path exe : FsPath)
    (argv : List String)
    (h : Event.procSpawn exe argv ∈ (processEntry env args cmd input_path).1) :
    exe = cmd ∧ ∃ relative, stripRoot args.input_dir input_path = some relative ∧
      argv = cmdArgs args input_path (args.output_dir ++ relative) := by
  cases hv : validate_wav env.openWav input_path with
  | error e => simp [processEntry, hv] at h
  | ok b =>
      cases b with
      | false => simp [processEntry, hv] at h
      | true =>
          cases hs : stripRoot args.input_dir input_path with
          | none => simp [processEntry, hv, hs] at h
          | some relative =>
              cases hp : parentDir (args.output_dir ++ relative) with
              | none =>
                  simp only [processEntry, hv, hs, hp] at h
                  obtain ⟨h1, h2⟩ :=
                    dispatchStep_spawn_mem env args cmd input_path _ exe argv h
                  exact ⟨h1, relative, rfl, h2⟩
              | some parent =>
                  cases hc : env.createDirAll parent with
                  | error e => simp [processEntry, hv, hs, hp, hc] at h
                  | ok u =>
                      simp only [processEntry, hv, hs, hp, hc, List.mem_cons] at h
                      cases h with
                      | inl habs => exact absurd habs (by simp)
                      | inr h =>
                          obtain ⟨h1, h2⟩ :=
                            dispatchStep_spawn_mem env args cmd input_path _ exe argv h
                          exact ⟨h1, relative, rfl, h2⟩

/-- Unfolding of the loop on the empty listing: summary and exit 0. -/
theorem runLoop_nil (env : SysEnv) (args : Args) (cmd : FsPath) (P S : Nat)
    (evs : List Event) :
    runLoop env args cmd [] P S evs =
      { events := evs ++ [Event.out (summaryLine P S)], exit := Except.ok (),
        processed := P, skipped := S } := rfl

/-- A fatal iteration stops the loop with that error and no further events. -/
theorem runLoop_cons_error (env : SysEnv) (args : Args) (cmd p : FsPath)
    (rest : List FsPath) (P S : Nat) (evs : List Event) (e : String)
    (h2 : (processEntry env args cmd p).2 = Except.error e) :
    runLoop env args cmd (p :: rest) P S evs =
      { events := evs ++ (processEntry env args cmd p).1,
        exit := Except.error e, processed := P, skipped := S } := by
  simp [runLoop, h2]

/-- A processed iteration continues with `processed` incremented. -/
theorem runLoop_cons_processed (env : SysEnv) (args : Args) (cmd p : FsPath)
    (rest : List FsPath) (P S : Nat) (evs : List Event)
    (h2 : (processEntry env args cmd p).2 = Except.ok ItemOutcome.processedItem) :
    runLoop env args cmd (p :: rest) P S evs =
      runLoop env args cmd rest (P + 1) S (evs ++ (processEntry env args cmd p).1) := by
  simp [runLoop, h2]

/-- A format-rejected iteration continues with `skipped` incremented. -/
theorem runLoop_cons_skippedInvalid (env : SysEnv) (args : Args) (cmd p : FsPath)
    (rest : List FsPath) (P S : Nat) (evs : List Event)
    (h2 : (processEntry env args cmd p).2 = Except.ok ItemOutcome.skippedInvalid) :
    runLoop env args cmd (p :: rest) P S evs =
      runLoop env args cmd rest P (S + 1) (evs ++ (processEntry env args cmd p).1) := by
  simp [runLoop, h2]

/-- A backend-failed iteration continues with `skipped` incremented. -/
theorem runLoop_cons_skippedFailed (env : SysEnv) (args : Args) (cmd p : FsPath)
    (rest : List FsPath) (P S : Nat) (evs : List Event) (code : Int)
    (h2 : (processEntry env args cmd p).2 = Except.ok (ItemOutcome.skippedFailed code)) :
    runLoop env args cmd (p :: rest) P S evs =
      runLoop env args cmd rest P (S + 1) (evs ++ (processEntry env args cmd p).1) := by
  simp [runLoop, h2]

/-- In a loop that ends without a fatal error, the final counters count the
consumed items on top of the starting counters. -/
theorem runLoop_counters (env : SysEnv) (args : Args) (cmd : FsPath) :
    ∀ (l : List FsPath) (P S : Nat) (evs : List Event),
      (runLoop env args cmd l P S evs).exit = Except.ok () →
      (runLoop env args cmd l P S evs).processed +
        (runLoop env args cmd l P S evs).skipped = P + S + l.length := by
  intro l
  induction l with
  | nil =>
      intro P S evs h
      simp [runLoop_nil]
  | cons p rest ih =>
      intro P S evs h
      cases h2 : (processEntry env args cmd p).2 with
      | error e =>
          rw [runLoop_cons_error env args cmd p rest P S evs e h2] at h
          exact absurd h (by simp)
      | ok oc =>
          cases oc with
          | processedItem =>
              rw [runLoop_cons_processed env args cmd p rest P S evs h2] at h ⊢
              have := ih (P + 1) S (evs ++ (processEntry env args cmd p).1) h
              simp only [List.length_cons]
              omega
          | skippedInvalid =>
              rw [runLoop_cons_skippedInvalid env args cmd p rest P S evs h2] at h ⊢
              have := ih P (S + 1) (evs ++ (processEntry env args cmd p).1) h
              simp only [List.length_cons]
              omega
          | skippedFailed code =>
              rw [runLoop_cons_skippedFailed env args cmd p rest P S evs code h2] at h ⊢
              have := ih P (S + 1) (evs ++ (processEntry env args cmd p).1) h
              simp only [List.length_cons]
              omega

/-- In a loop that ends without a fatal error, the only stdout lines beyond
the accumulator are the single final summary line. -/
theorem runLoop_ok_out_lines (env : SysEnv) (args : Args) (cmd : FsPath) :
    ∀ (l : List FsPath) (P S : Nat) (evs : List Event),
      (runLoop env args cmd l P S evs).exit = Except.ok () →
      List.filter Event.isOut (runLoop env args cmd l P S evs).events =
        List.filter Event.isOut evs ++
          [Event.out (summaryLine (runLoop env args cmd l P S evs).processed
            (runLoop env args cmd l P S evs).skipped)] := by
  intro l
  induction l with
  | nil =>
      intro P S evs h
      simp [runLoop_nil, List.filter_append, Event.isOut]
  | cons p rest ih =>
      intro P S evs h
      cases h2 : (processEntry env args cmd p).2 with
      | error e =>
          rw [runLoop_cons_error env args cmd p rest P S evs e h2] at h
          exact absurd h (by simp)
      | ok oc =>
          cases oc with
          | processedItem =>
              rw [runLoop_cons_processed env args cmd p rest P S evs h2] at h ⊢
              rw [ih (P + 1) S (evs ++ (processEntry env args cmd p).1) h,
                List.filter_append, processEntry_no_out, List.append_nil]
          | skippedInvalid =>
              rw [runLoop_cons_skippedInvalid env args cmd p rest P S evs h2] at h ⊢
              rw [ih P (S + 1) (evs ++ (processEntry env args cmd p).1) h,
                List.filter_append, processEntry_no_out, List.append_nil]
          | skippedFailed code =>
              rw [runLoop_cons_skippedFailed env args cmd p rest P S evs code h2] at h ⊢
              rw [ih P (S + 1) (evs ++ (processEntry env args cmd p).1) h,
                List.filter_append, processEntry_no_out, List.append_nil]

/-- In a loop that ends with a fatal error, no stdout line beyond the
accumulator is ever produced. -/
theorem runLoop_error_out_lines (env : SysEnv) (args : Args) (cmd : FsPath) :
    ∀ (l : List FsPath) (P S : Nat) (evs : List Event) (e : String),
      (runLoop env args cmd l P S evs).exit = Except.error e →
      List.filter Event.isOut (runLoop env args cmd l P S evs).events =
        List.filter Event.isOut evs := by
  intro l
  induction l with
  | nil =>
      intro P S evs e h
      exact absurd h (by simp [runLoop_nil])
  | cons p rest ih =>
      intro P S evs e h
      cases h2 : (processEntry env args cmd p).2 with
      | error e0 =>
          rw [runLoop_cons_error env args cmd p rest P S evs e0 h2]
          rw [List.filter_append, processEntry_no_out, List.append_nil]
      | ok oc =>
          cases oc with
          | processedItem =>
              rw [runLoop_cons_processed env args cmd p rest P S evs h2] at h ⊢
              rw [ih (P + 1) S (evs ++ (processEntry env args cmd p).1) e h,
                List.filter_append, processEntry_no_out, List.append_nil]
          | skippedInvalid =>
              rw [runLoop_cons_skippedInvalid env args cmd p rest P S evs h2] at h ⊢
              rw [ih P (S + 1) (evs ++ (processEntry env args cmd p).1) e h,
                List.filter_append, processEntry_no_out, List.append_nil]
          | skippedFailed code =>
              rw [runLoop_cons_skippedFailed env args cmd p rest P S evs code h2] at h ⊢
              rw [ih P (S + 1) (evs ++ (processEntry env args cmd p).1) e h,
                List.filter_append, processEntry_no_out, List.append_nil]

/-- Every spawn event of a loop comes from the accumulator or from one of the
listed paths' iterations. -/
theorem runLoop_spawn_src (env : SysEnv) (args : Args) (cmd : FsPath) :
    ∀ (l : List FsPath) (P S : Nat) (evs : List Event) (exe : FsPath)
      (argv : List String),
      Event.procSpawn exe argv ∈ (runLoop env args cmd l P S evs).events →
      Event.procSpawn exe argv ∈ evs ∨
        ∃ p, p ∈ l ∧ Event.procSpawn exe argv ∈ (processEntry env args cmd p).1 := by
  intro l
  induction l with
  | nil =>
      intro P S evs exe argv h
      rw [runLoop_nil] at h
      simp only [List.mem_append, List.mem_singleton] at h
      cases h with
      | inl h => exact Or.inl h
      | inr h => exact absurd h (by simp)
  | cons p rest ih =>
      intro P S evs exe argv h
      cases h2 : (processEntry env args cmd p).2 with
      | error e =>
          rw [runLoop_cons_error env args cmd p rest P S evs e h2] at h
          simp only [List.mem_append] at h
          cases h with
          | inl h => exact Or.inl h
          | inr h => exact Or.inr ⟨p, List.mem_cons_self p rest, h⟩
      | ok oc =>
          have hstep : Event.procSpawn exe argv ∈ evs ++ (processEntry env args cmd p).1 ∨
              ∃ q, q ∈ rest ∧ Event.procSpawn exe argv ∈ (processEntry env args cmd q).1 := by
            cases oc with
            | processedItem =>
                rw [runLoop_cons_processed env args cmd p rest P S evs h2] at h
                exact ih (P + 1) S (evs ++ (processEntry env args cmd p).1) exe argv h
            | skippedInvalid =>
                rw [runLoop_cons_skippedInvalid env args cmd p rest P S evs h2] at h
                exact ih P (S + 1) (evs ++ (processEntry env args cmd p).1) exe argv h
            | skippedFailed code =>
                rw [runLoop_cons_skippedFailed env args cmd p rest P S evs code h2] at h
                exact ih P (S + 1) (evs ++ (processEntry env args cmd p).1) exe argv h
          cases hstep with
          | inl h3 =>
              rw [List.mem_append] at h3
              cases h3 with
              | inl h4 => exact Or.inl h4
              | inr h4 => exact Or.inr ⟨p, List.mem_cons_self p rest, h4⟩
          | inr h3 =>
              obtain ⟨q, hq, hm⟩ := h3
              exact Or.inr ⟨q, List.mem_cons_of_mem p hq, hm⟩

/-- Claim C1: for every path whose header parses to a format descriptor, the
validator accepts the file exactly when the descriptor has 1 channel, a 16000
Hz sample rate and 16 bits per sample; any other triple yields reject. -/
theorem validate_wav_accepts_iff_target (openWav : FsPath → Except String WavSpec)
    (path : FsPath) (spec : WavSpec) (h : openWav path = Except.ok spec) :
    (validate_wav openWav path = Except.ok true ↔
       spec.channels = 1 ∧ spec.sample_rate = 16000 ∧ spec.bits_per_sample = 16) ∧
    (¬(spec.channels = 1 ∧ spec.sample_rate = 16000 ∧ spec.bits_per_sample = 16) →
       validate_wav openWav path = Except.ok false) := by
  have hv : validate_wav openWav path =
      Except.ok (spec.channels == 1 && spec.sample_rate == 16000 &&
        spec.bits_per_sample == 16) := by
    unfold validate_wav
    rw [h]
  constructor
  · rw [hv]
    simp [Bool.and_eq_true, beq_iff_eq, and_assoc]
  · intro hn
    rw [hv]
    have hb : (spec.channels == 1 && spec.sample_rate == 16000 &&
        spec.bits_per_sample == 16) = false := by
      rw [Bool.eq_false_iff]
      intro hb
      apply hn
      simpa [Bool.and_eq_true, beq_iff_eq, and_assoc] using hb
    rw [hb]

/-- Witness for the C1 theorem at a concrete oracle and descriptor. -/
theorem validate_wav_accepts_iff_target_witness :
    (validate_wav (fun _ => Except.ok specGood) ["a"] = Except.ok true ↔
       specGood.channels = 1 ∧ specGood.sample_rate = 16000 ∧
         specGood.bits_per_sample = 16) ∧
    (¬(specGood.channels = 1 ∧ specGood.sample_rate = 16000 ∧
         specGood.bits_per_sample = 16) →
       validate_wav (fun _ => Except.ok specGood) ["a"] = Except.ok false) :=
  validate_wav_accepts_iff_target (fun _ => Except.ok specGood) ["a"] specGood rfl

/-- Claim C10: a traversal error entry anywhere in the walk is silently
dropped — the whole run (its trace, exit status and both counters) is
identical to the run on the listing without that entry. -/
theorem walk_error_entry_run_unchanged (env : SysEnv) (args : Args)
    (xs ys : List WalkEntry) (m : String) :
    mainRun env args (xs ++ WalkEntry.err m :: ys) = mainRun env args (xs ++ ys) := by
  unfold mainRun
  rw [show filteredPaths (xs ++ WalkEntry.err m :: ys) = filteredPaths (xs ++ ys) by
    rw [filteredPaths_append, filteredPaths_err_cons, ← filteredPaths_append]]

/-- Claim C9 counterexample: a regular file named exactly ".wav" carries the
case-sensitive four-character suffix `.wav`, yet the extension filter drops
it, so it never reaches the validator. -/
theorem dot_wav_file_never_validated :
    List.IsSuffix ([ '.', 'w', 'a', 'v' ]) (String.toList (".wav")) ∧
    filteredPaths [WalkEntry.ok [".wav"] FileType.file] = [] :=
  ⟨⟨[], rfl⟩, rfl⟩

/-- Claim C9 amended: an entry reaches the validator exactly when it is a
regular file whose filename ends in the case-sensitive four characters `.wav`
with at least one character before that suffix (Rust's `extension()` treats a
leading dot as part of a hidden file name, so a file named exactly ".wav" has
no extension and is dropped). -/
theorem reaches_validator_iff_wav_suffix_nonempty_stem (entries : List WalkEntry)
    (p : FsPath) :
    p ∈ filteredPaths entries ↔
      WalkEntry.ok p FileType.file ∈ entries ∧
      ∃ name pre, List.getLast? p = some name ∧
        String.toList name = pre ++ [ '.', 'w', 'a', 'v' ] ∧ pre ≠ [] := by
  rw [filteredPaths_mem]
  constructor
  · rintro ⟨hin, hext⟩
    refine ⟨hin, ?_⟩
    unfold pathExtension at hext
    obtain ⟨name, hlast, hfe⟩ := Option.bind_eq_some.mp hext
    obtain ⟨pre, hsp, hne⟩ := (fileExtension_wav_iff name).mp hfe
    exact ⟨name, pre, hlast, hsp, hne⟩
  · rintro ⟨hin, name, pre, hlast, hsp, hne⟩
    refine ⟨hin, ?_⟩
    unfold pathExtension
    rw [Option.bind_eq_some]
    exact ⟨name, hlast, (fileExtension_wav_iff name).mpr ⟨pre, hsp, hne⟩⟩

/-- Claim C4 counterexample: with a nonexistent input root the walk yields a
single error entry; the run is NOT fatal — it exits 0, examines no file, and
still prints the summary line. -/
theorem missing_input_root_not_fatal :
    (mainRun envAllOk argsBasic [WalkEntry.err ("No such file or directory")]).exit
        = Except.ok () ∧
    (mainRun envAllOk argsBasic [WalkEntry.err ("No such file or directory")]).events
        = [Event.fsCreateDirAll ["out"], Event.out (summaryLine 0 0)] :=
  ⟨rfl, rfl⟩

/-- Claim C4 amended: the program never canonicalizes or checks the input
root; when the root does not exist the walk yields only error entries, which
are silently dropped, so provided the output root is creatable the run
completes with exit 0, both counters zero, and the summary line. -/
theorem missing_input_root_silently_empty_run (env : SysEnv) (args : Args)
    (errs : List String) (hcd : env.createDirAll args.output_dir = Except.ok ()) :
    (mainRun env args (List.map WalkEntry.err errs)).exit = Except.ok () ∧
    (mainRun env args (List.map WalkEntry.err errs)).processed = 0 ∧
    (mainRun env args (List.map WalkEntry.err errs)).skipped = 0 ∧
    (mainRun env args (List.map WalkEntry.err errs)).events =
      [Event.fsCreateDirAll args.output_dir, Event.out (summaryLine 0 0)] := by
  have hm : mainRun env args (List.map WalkEntry.err errs) =
      runLoop env args (nnnoiselessCmd args) [] 0 0
        [Event.fsCreateDirAll args.output_dir] := by
    simp only [mainRun, hcd, filteredPaths_all_err]
  rw [hm, runLoop_nil]
  exact ⟨rfl, rfl, rfl, rfl⟩

/-- Witness for the amended C4 theorem at a concrete environment. -/
theorem missing_input_root_silently_empty_run_witness :
    (mainRun envAllOk argsBasic (List.map WalkEntry.err ["boom"])).exit
        = Except.ok () ∧
    (mainRun envAllOk argsBasic (List.map WalkEntry.err ["boom"])).processed = 0 ∧
    (mainRun envAllOk argsBasic (List.map WalkEntry.err ["boom"])).skipped = 0 ∧
    (mainRun envAllOk argsBasic (List.map WalkEntry.err ["boom"])).events =
      [Event.fsCreateDirAll argsBasic.output_dir, Event.out (summaryLine 0 0)] :=
  missing_input_root_silently_empty_run envAllOk argsBasic ["boom"] rfl

/-- Claim C5: a failure to open or parse a candidate's header makes that
iteration fatal, the loop stops at once with that error (so `main` returns a
non-zero exit), and any run that exits fatally prints no stdout line at all —
in particular no summary line. -/
theorem open_failure_fatal_and_no_summary (env : SysEnv) (args : Args)
    (cmd p : FsPath) (e : String) (h : env.openWav p = Except.error e) :
    (processEntry env args cmd p).2 =
      Except.error ("Failed to open WAV file: " ++ pathDisplay p) ∧
    (∀ (rest : List FsPath) (P S : Nat) (evs : List Event),
       runLoop env args cmd (p :: rest) P S evs =
         { events := evs ++ (processEntry env args cmd p).1,
           exit := Except.error ("Failed to open WAV file: " ++ pathDisplay p),
           processed := P, skipped := S }) ∧
    (∀ (entries : List WalkEntry) (er : String),
       (mainRun env args entries).exit = Except.error er →
       List.filter Event.isOut (mainRun env args entries).events = []) := by
  have hval : validate_wav env.openWav p =
      Except.error ("Failed to open WAV file: " ++ pathDisplay p) := by
    unfold validate_wav
    rw [h]
  have hpe : (processEntry env args cmd p).2 =
      Except.error ("Failed to open WAV file: " ++ pathDisplay p) := by
    simp [processEntry, hval]
  refine ⟨hpe, ?_, ?_⟩
  · intro rest P S evs
    exact runLoop_cons_error env args cmd p rest P S evs _ hpe
  · intro entries er hx
    cases hcd : env.createDirAll args.output_dir with
    | error e0 =>
        simp only [mainRun, hcd]
        simp [Event.isOut]
    | ok u =>
        simp only [mainRun, hcd] at hx ⊢
        rw [runLoop_error_out_lines env args (nnnoiselessCmd args)
          (filteredPaths entries) 0 0 [Event.fsCreateDirAll args.output_dir] er hx]
        simp [Event.isOut]

/-- Witness for the C5 theorem at a concrete failing oracle. -/
theorem open_failure_fatal_and_no_summary_witness :
    (processEntry envOpenFail argsBasic ["nnnoiseless"] ["in", "a.wav"]).2 =
      Except.error ("Failed to open WAV file: " ++ pathDisplay ["in", "a.wav"]) ∧
    (∀ (rest : List FsPath) (P S : Nat) (evs : List Event),
       runLoop envOpenFail argsBasic ["nnnoiseless"] (["in", "a.wav"] :: rest) P S evs =
         { events := evs ++ (processEntry envOpenFail argsBasic ["nnnoiseless"] ["in", "a.wav"]).1,
           exit := Except.error ("Failed to open WAV file: " ++ pathDisplay ["in", "a.wav"]),
           processed := P, skipped := S }) ∧
    (∀ (entries : List WalkEntry) (er : String),
       (mainRun envOpenFail argsBasic entries).exit = Except.error er →
       List.filter Event.isOut (mainRun envOpenFail argsBasic entries).events = []) :=
  open_failure_fatal_and_no_summary envOpenFail argsBasic ["nnnoiseless"]
    ["in", "a.wav"] ("io error") rfl

/-- Claim C6: a run that completes without a fatal error satisfies
processed + skipped = number of `.wav` regular files that survived the walk
filter, and its stdout consists of exactly one line: the summary naming the
two final counters. -/
theorem counters_partition_and_single_summary (env : SysEnv) (args : Args)
    (entries : List WalkEntry)
    (h : (mainRun env args entries).exit = Except.ok ()) :
    (mainRun env args entries).processed + (mainRun env args entries).skipped =
      (filteredPaths entries).length ∧
    List.filter Event.isOut (mainRun env args entries).events =
      [Event.out (summaryLine (mainRun env args entries).processed
        (mainRun env args entries).skipped)] := by
  cases hcd : env.createDirAll args.output_dir with
  | error e =>
      simp only [mainRun, hcd] at h
      exact absurd h (by simp)
  | ok u =>
      simp only [mainRun, hcd] at h ⊢
      constructor
      · simpa using runLoop_counters env args (nnnoiselessCmd args)
          (filteredPaths entries) 0 0 [Event.fsCreateDirAll args.output_dir] h
      · rw [runLoop_ok_out_lines env args (nnnoiselessCmd args)
          (filteredPaths entries) 0 0 [Event.fsCreateDirAll args.output_dir] h]
        simp [Event.isOut]

/-- Witness for the C6 theorem at a concrete successful run. -/
theorem counters_partition_and_single_summary_witness :
    (mainRun envAllOk argsBasic [WalkEntry.ok ["in", "a.wav"] FileType.file]).processed +
      (mainRun envAllOk argsBasic [WalkEntry.ok ["in", "a.wav"] FileType.file]).skipped =
      (filteredPaths [WalkEntry.ok ["in", "a.wav"] FileType.file]).length ∧
    List.filter Event.isOut
        (mainRun envAllOk argsBasic [WalkEntry.ok ["in", "a.wav"] FileType.file]).events =
      [Event.out (summaryLine
        (mainRun envAllOk argsBasic [WalkEntry.ok ["in", "a.wav"] FileType.file]).processed
        (mainRun envAllOk argsBasic [WalkEntry.ok ["in", "a.wav"] FileType.file]).skipped)] :=
  counters_partition_and_single_summary envAllOk argsBasic
    [WalkEntry.ok ["in", "a.wav"] FileType.file] rfl

/-- Claim C8: a file the validator rejects gets exactly one stderr diagnostic
naming it, no directory creation and no dispatch (hence no output file is
produced for it), and the loop continues with `skipped` incremented. -/
theorem rejected_file_skipped_without_dispatch (env : SysEnv) (args : Args)
    (cmd p : FsPath) (h : validate_wav env.openWav p = Except.ok false) :
    processEntry env args cmd p =
      ([Event.errOut ("Skipping invalid WAV file: " ++ pathDisplay p)],
       Except.ok ItemOutcome.skippedInvalid) ∧
    (∀ (exe : FsPath) (argv : List String),
       Event.procSpawn exe argv ∉ (processEntry env args cmd p).1) ∧
    (∀ q : FsPath, Event.fsCreateDirAll q ∉ (processEntry env args cmd p).1) ∧
    (∀ (rest : List FsPath) (P S : Nat) (evs : List Event),
       runLoop env args cmd (p :: rest) P S evs =
         runLoop env args cmd rest P (S + 1)
           (evs ++ [Event.errOut ("Skipping invalid WAV file: " ++ pathDisplay p)])) := by
  have hpe : processEntry env args cmd p =
      ([Event.errOut ("Skipping invalid WAV file: " ++ pathDisplay p)],
       Except.ok ItemOutcome.skippedInvalid) := by
    simp [processEntry, h]
  refine ⟨hpe, ?_, ?_, ?_⟩
  · intro exe argv
    rw [hpe]
    simp
  · intro q
    rw [hpe]
    simp
  · intro rest P S evs
    simpa [hpe] using runLoop_cons_skippedInvalid env args cmd p rest P S evs
      (by rw [hpe])

/-- Witness for the C8 theorem at a concrete stereo file. -/
theorem rejected_file_skipped_without_dispatch_witness :
    processEntry envStereo argsBasic ["nnnoiseless"] ["in", "a.wav"] =
      ([Event.errOut ("Skipping invalid WAV file: " ++ pathDisplay ["in", "a.wav"])],
       Except.ok ItemOutcome.skippedInvalid) ∧
    (∀ (exe : FsPath) (argv : List String),
       Event.procSpawn exe argv ∉
         (processEntry envStereo argsBasic ["nnnoiseless"] ["in", "a.wav"]).1) ∧
    (∀ q : FsPath, Event.fsCreateDirAll q ∉
       (processEntry envStereo argsBasic ["nnnoiseless"] ["in", "a.wav"]).1) ∧
    (∀ (rest : List FsPath) (P S : Nat) (evs : List Event),
       runLoop envStereo argsBasic ["nnnoiseless"] (["in", "a.wav"] :: rest) P S evs =
         runLoop envStereo argsBasic ["nnnoiseless"] rest P (S + 1)
           (evs ++ [Event.errOut ("Skipping invalid WAV file: " ++
             pathDisplay ["in", "a.wav"])])) :=
  rejected_file_skipped_without_dispatch envStereo argsBasic ["nnnoiseless"]
    ["in", "a.wav"] rfl

/-- Claim C2: for an accepted file, a strip-prefix failure is fatal; when the
strip succeeds, the iteration creates the parent directory of the output path
(the output root joined with the stripped suffix) as its first event and only
afterwards invokes the dispatcher, whose spawn receives exactly that output
path. -/
theorem mapped_output_and_parent_before_dispatch (env : SysEnv) (args : Args)
    (cmd p : FsPath) (hv : validate_wav env.openWav p = Except.ok true) :
    (stripRoot args.input_dir p = none →
       (processEntry env args cmd p).2 =
         Except.error ("Failed to compute relative path for: " ++ pathDisplay p)) ∧
    (∀ (relative parent : FsPath),
       stripRoot args.input_dir p = some relative →
       parentDir (args.output_dir ++ relative) = some parent →
       env.createDirAll parent = Except.ok () →
       processEntry env args cmd p =
         (Event.fsCreateDirAll parent ::
            (dispatchStep env args cmd p (args.output_dir ++ relative)).1,
          (dispatchStep env args cmd p (args.output_dir ++ relative)).2) ∧
       List.head? (dispatchStep env args cmd p (args.output_dir ++ relative)).1 =
         some (Event.procSpawn cmd (cmdArgs args p (args.output_dir ++ relative)))) := by
  constructor
  · intro hs
    simp [processEntry, hv, hs]
  · intro relative parent hs hp hc
    constructor
    · simp [processEntry, hv, hs, hp, hc]
    · cases hsp : env.spawnStatus cmd (cmdArgs args p (args.output_dir ++ relative)) with
      | error e => simp [dispatchStep, hsp]
      | ok code =>
          by_cases h0 : code = 0
          · simp [dispatchStep, hsp, h0]
          · simp [dispatchStep, hsp, h0]

/-- Witness for the C2 theorem at a concrete accepted file. -/
theorem mapped_output_and_parent_before_dispatch_witness :
    (stripRoot argsBasic.input_dir ["in", "a.wav"] = none →
       (processEntry envAllOk argsBasic ["nnnoiseless"] ["in", "a.wav"]).2 =
         Except.error ("Failed to compute relative path for: " ++
           pathDisplay ["in", "a.wav"])) ∧
    (∀ (relative parent : FsPath),
       stripRoot argsBasic.input_dir ["in", "a.wav"] = some relative →
       parentDir (argsBasic.output_dir ++ relative) = some parent →
       envAllOk.createDirAll parent = Except.ok () →
       processEntry envAllOk argsBasic ["nnnoiseless"] ["in", "a.wav"] =
         (Event.fsCreateDirAll parent ::
            (dispatchStep envAllOk argsBasic ["nnnoiseless"] ["in", "a.wav"]
              (argsBasic.output_dir ++ relative)).1,
          (dispatchStep envAllOk argsBasic ["nnnoiseless"] ["in", "a.wav"]
            (argsBasic.output_dir ++ relative)).2) ∧
       List.head? (dispatchStep envAllOk argsBasic ["nnnoiseless"] ["in", "a.wav"]
           (argsBasic.output_dir ++ relative)).1 =
         some (Event.procSpawn ["nnnoiseless"] (cmdArgs argsBasic ["in", "a.wav"]
           (argsBasic.output_dir ++ relative)))) :=
  mapped_output_and_parent_before_dispatch envAllOk argsBasic ["nnnoiseless"]
    ["in", "a.wav"] rfl

/-- Claim C3: for an item that reaches dispatch in local-subprocess mode, the
outcome is success exactly when the child exit status is zero; a non-zero
exit yields a stderr diagnostic naming the path, increments `skipped`, and
lets the loop continue (a single-file run still ends with exit 0); a failure
to spawn the process at all is fatal. -/
theorem dispatch_success_iff_exit_zero (env : SysEnv) (args : Args)
    (cmd p relative parent : FsPath)
    (hv : validate_wav env.openWav p = Except.ok true)
    (hs : stripRoot args.input_dir p = some relative)
    (hp : parentDir (args.output_dir ++ relative) = some parent)
    (hc : env.createDirAll parent = Except.ok ()) :
    (∀ code : Int,
       env.spawnStatus cmd (cmdArgs args p (args.output_dir ++ relative)) =
         Except.ok code →
       ((processEntry env args cmd p).2 = Except.ok ItemOutcome.processedItem ↔
          code = 0) ∧
       (code ≠ 0 →
          (processEntry env args cmd p).2 =
            Except.ok (ItemOutcome.skippedFailed code) ∧
          Event.errOut ("Denoising failed for " ++ pathDisplay p ++
            ": exit code " ++ statusDisplay code) ∈ (processEntry env args cmd p).1 ∧
          (∀ (rest : List FsPath) (P S : Nat) (evs : List Event),
             runLoop env args cmd (p :: rest) P S evs =
               runLoop env args cmd rest P (S + 1)
                 (evs ++ (processEntry env args cmd p).1)) ∧
          (∀ (P S : Nat) (evs : List Event),
             (runLoop env args cmd [p] P S evs).exit = Except.ok () ∧
             (runLoop env args cmd [p] P S evs).processed = P ∧
             (runLoop env args cmd [p] P S evs).skipped = S + 1))) ∧
    (∀ e : String,
       env.spawnStatus cmd (cmdArgs args p (args.output_dir ++ relative)) =
         Except.error e →
       (processEntry env args cmd p).2 =
         Except.error ("Failed to execute nnnoiseless for: " ++ pathDisplay p)) := by
  have hpe : processEntry env args cmd p =
      (Event.fsCreateDirAll parent ::
         (dispatchStep env args cmd p (args.output_dir ++ relative)).1,
       (dispatchStep env args cmd p (args.output_dir ++ relative)).2) := by
    simp [processEntry, hv, hs, hp, hc]
  constructor
  · intro code hsp
    by_cases h0 : code = 0
    · subst h0
      have hds : dispatchStep env args cmd p (args.output_dir ++ relative) =
          ([Event.procSpawn cmd (cmdArgs args p (args.output_dir ++ relative))],
           Except.ok ItemOutcome.processedItem) := by
        simp [dispatchStep, hsp]
      constructor
      · rw [hpe, hds]
        simp
      · intro hne
        exact absurd rfl hne
    · have hds : dispatchStep env args cmd p (args.output_dir ++ relative) =
          ([Event.procSpawn cmd (cmdArgs args p (args.output_dir ++ relative)),
            Event.errOut ("Denoising failed for " ++ pathDisplay p ++
              ": exit code " ++ statusDisplay code)],
           Except.ok (ItemOutcome.skippedFailed code)) := by
        simp [dispatchStep, hsp, h0]
      constructor
      · rw [hpe, hds]
        simp [h0]
      · intro hne
        have h2 : (processEntry env args cmd p).2 =
            Except.ok (ItemOutcome.skippedFailed code) := by
          rw [hpe, hds]
        refine ⟨h2, ?_, ?_, ?_⟩
        · rw [hpe, hds]
          simp
        · intro rest P S evs
          exact runLoop_cons_skippedFailed env args cmd p rest P S evs code h2
        · intro P S evs
          rw [runLoop_cons_skippedFailed env args cmd p [] P S evs code h2,
            runLoop_nil]
          exact ⟨rfl, rfl, rfl⟩
  · intro e hsp
    have hds : dispatchStep env args cmd p (args.output_dir ++ relative) =
        ([Event.procSpawn cmd (cmdArgs args p (args.output_dir ++ relative))],
         Except.error ("Failed to execute nnnoiseless for: " ++ pathDisplay p)) := by
      simp [dispatchStep, hsp]
    rw [hpe, hds]

/-- Witness for the C3 theorem at a concrete environment whose subprocess
exits with code 1. -/
theorem dispatch_success_iff_exit_zero_witness :
    (∀ code : Int,
       envExitOne.spawnStatus ["nnnoiseless"]
           (cmdArgs argsBasic ["in", "a.wav"] (argsBasic.output_dir ++ ["a.wav"])) =
         Except.ok code →
       ((processEntry envExitOne argsBasic ["nnnoiseless"] ["in", "a.wav"]).2 =
           Except.ok ItemOutcome.processedItem ↔ code = 0) ∧
       (code ≠ 0 →
          (processEntry envExitOne argsBasic ["nnnoiseless"] ["in", "a.wav"]).2 =
            Except.ok (ItemOutcome.skippedFailed code) ∧
          Event.errOut ("Denoising failed for " ++ pathDisplay ["in", "a.wav"] ++
            ": exit code " ++ statusDisplay code) ∈
              (processEntry envExitOne argsBasic ["nnnoiseless"] ["in", "a.wav"]).1 ∧
          (∀ (rest : List FsPath) (P S : Nat) (evs : List Event),
             runLoop envExitOne argsBasic ["nnnoiseless"] (["in", "a.wav"] :: rest) P S evs =
               runLoop envExitOne argsBasic ["nnnoiseless"] rest P (S + 1)
                 (evs ++ (processEntry envExitOne argsBasic ["nnnoiseless"] ["in", "a.wav"]).1)) ∧
          (∀ (P S : Nat) (evs : List Event),
             (runLoop envExitOne argsBasic ["nnnoiseless"] [["in", "a.wav"]] P S evs).exit =
               Except.ok () ∧
             (runLoop envExitOne argsBasic ["nnnoiseless"] [["in", "a.wav"]] P S evs).processed = P ∧
             (runLoop envExitOne argsBasic ["nnnoiseless"] [["in", "a.wav"]] P S evs).skipped = S + 1))) ∧
    (∀ e : String,
       envExitOne.spawnStatus ["nnnoiseless"]
           (cmdArgs argsBasic ["in", "a.wav"] (argsBasic.output_dir ++ ["a.wav"])) =
         Except.error e →
       (processEntry envExitOne argsBasic ["nnnoiseless"] ["in", "a.wav"]).2 =
         Except.error ("Failed to execute nnnoiseless for: " ++ pathDisplay ["in", "a.wav"])) :=
  dispatch_success_iff_exit_zero envExitOne argsBasic ["nnnoiseless"] ["in", "a.wav"]
    ["a.wav"] ["out"] rfl rfl rfl rfl

/-- Claim C7: every spawned process uses the configured executable — the bare
name "nnnoiseless" when no path flag was given — and its argument list is the
optional `--model=<path>` flag, present exactly when a model path was
supplied, followed by the input path and then the output path. -/
theorem spawn_default_name_and_argument_order (env : SysEnv) (args : Args)
    (entries : List WalkEntry) (exe : FsPath) (argv : List String)
    (h : Event.procSpawn exe argv ∈ (mainRun env args entries).events) :
    exe = nnnoiselessCmd args ∧
    (args.nnnoiseless_path = none → exe = ["nnnoiseless"]) ∧
    ∃ input_path relative,
      stripRoot args.input_dir input_path = some relative ∧
      (args.model_path = none →
         argv = [pathDisplay input_path,
                 pathDisplay (args.output_dir ++ relative)]) ∧
      (∀ model : FsPath, args.model_path = some model →
         argv = ["--model=" ++ pathDisplay model, pathDisplay input_path,
                 pathDisplay (args.output_dir ++ relative)]) := by
  cases hcd : env.createDirAll args.output_dir with
  | error e =>
      simp only [mainRun, hcd] at h
      simp at h
  | ok u =>
      simp only [mainRun, hcd] at h
      have hsrc := runLoop_spawn_src env args (nnnoiselessCmd args)
        (filteredPaths entries) 0 0 [Event.fsCreateDirAll args.output_dir] exe argv h
      cases hsrc with
      | inl habs => exact absurd habs (by simp)
      | inr hsrc =>
          obtain ⟨p, hpmem, hmem⟩ := hsrc
          obtain ⟨hexe, relative, hs, hargv⟩ :=
            processEntry_spawn_mem env args (nnnoiselessCmd args) p exe argv hmem
          refine ⟨hexe, ?_, p, relative, hs, ?_, ?_⟩
          · intro hn
            rw [hexe]
            simp [nnnoiselessCmd, hn]
          · intro hn
            rw [hargv]
            simp [cmdArgs, hn]
          · intro model hm
            rw [hargv]
            simp [cmdArgs, hm]

/-- Witness for the C7 theorem at a concrete run containing one spawn. -/
theorem spawn_default_name_and_argument_order_witness :
    ["nnnoiseless"] = nnnoiselessCmd argsBasic ∧
    (argsBasic.nnnoiseless_path = none → (["nnnoiseless"] : FsPath) = ["nnnoiseless"]) ∧
    ∃ input_path relative,
      stripRoot argsBasic.input_dir input_path = some relative ∧
      (argsBasic.model_path = none →
         ["in/a.wav", "out/a.wav"] =
           [pathDisplay input_path, pathDisplay (argsBasic.output_dir ++ relative)]) ∧
      (∀ model : FsPath, argsBasic.model_path = some model →
         ["in/a.wav", "out/a.wav"] =
           ["--model=" ++ pathDisplay model, pathDisplay input_path,
            pathDisplay (argsBasic.output_dir ++ relative)]) :=
  spawn_default_name_and_argument_order envAllOk argsBasic
    [WalkEntry.ok ["in", "a.wav"] FileType.file] ["nnnoiseless"]
    ["in/a.wav", "out/a.wav"] (by decide)
